import Mathlib

/-!
# OpenCensus stats exporter for Datadog: conversion and export path

A shallow embedding of `stats.go` and `datadog.go`.

Modelling conventions.

* A Go pointer that may be nil is an `Option`; dereferencing `none` is a panic,
  and every function of the export path returns `Except Panic _`.
* A Go `string` is a Lean `String`. The only string operations of the program
  are concatenation and the replacement of the one-byte pattern `/`, which act
  the same way on the bytes of a UTF-8 string and on its characters.
* `float64` values are elements of an arbitrary type `F`; the conversion
  `float64(n)` of an `int64` is a function `Int → F` handed to the converter.
  `int64` values are integers (the program does no arithmetic on them).
* Effects are recorded in an explicit `World`: calls of `Bundler.Add`, calls of
  the uploader, calls of the custom error hook, log output and goroutines
  started with `go`.
* What the program imports from other packages and does not define itself
  (the bundler, the API client, `os.Hostname`) is a parameter, see `External`.
-/

namespace DatadogExporter

/-! ## Standard library -/

/-- The run-time panics of the export path: only nil dereferences can occur. -/
inductive Panic where
  | nilPointerDereference
  deriving DecidableEq, Repr

/-- Go `time.Time`: seconds since the Unix epoch and the nanoseconds within that second. -/
structure time.Time where
  unixSec : Int
  nsec : Nat
  deriving DecidableEq, Repr

/-- Go `Time.Unix()`: the number of whole seconds since the epoch. -/
def time.Time.Unix (t : time.Time) : Int := t.unixSec

/-- Scan of `strings.Replace` for a non-empty pattern `old`: the first argument counts the
characters of a match that are still to be skipped. -/
def replaceFrom (old new : List Char) : Nat → List Char → List Char
  | _, [] => []
  | skip + 1, _ :: cs => replaceFrom old new skip cs
  | 0, c :: cs =>
    if old.isPrefixOf (c :: cs) then new ++ replaceFrom old new (old.length - 1) cs
    else c :: replaceFrom old new 0 cs

/-- Go `strings.Replace(s, old, new, -1)`: every non-overlapping occurrence of `old`, from the
left, is replaced by `new`; an empty `old` matches before every character and at the end. -/
def strings.Replace (s old new : String) : String :=
  if old = new then s
  else if old.data = [] then ⟨new.data ++ (s.data.map (fun c => c :: new.data)).flatten⟩
  else ⟨replaceFrom old.data new.data 0 s.data⟩

/-- Go `error` values: the two sentinel errors of the bundler package, compared by identity in
`ExportView`, and any other error, identified by its message. -/
inductive GoError where
  | ErrOversizedItem
  | ErrOverflow
  | errorString (msg : String)
  deriving DecidableEq, Repr

/-- Go `errors.New`. -/
def errors.New (msg : String) : GoError := GoError.errorString msg

/-- Go `fmt.Errorf` with a format that has no verb. -/
def fmt.Errorf (msg : String) : GoError := GoError.errorString msg

/-- One call of the `log` package: `log.Print(s)` or `log.Printf(format, err)`. -/
inductive LogEntry where
  | Print (s : String)
  | Printf (format : String) (err : GoError)
  deriving DecidableEq, Repr

/-! ## Imported data types -/

/-- Go `tag.Key`. -/
structure tag.Key where
  name : String
  deriving DecidableEq, Repr

/-- Go `Key.Name()`. -/
def tag.Key.Name (k : tag.Key) : String := k.name

/-- Go `tag.Tag`. -/
structure tag.Tag where
  Key : tag.Key
  Value : String
  deriving DecidableEq, Repr

/-- Go `view.CountData`. -/
structure view.CountData where
  Value : Int
  deriving DecidableEq, Repr

/-- Go `view.SumData`. -/
structure view.SumData (F : Type) where
  Value : F
  deriving DecidableEq, Repr

/-- Go `view.LastValueData`. -/
structure view.LastValueData (F : Type) where
  Value : F
  deriving DecidableEq, Repr

/-- Go `view.DistributionData`. -/
structure view.DistributionData (F : Type) where
  Count : Int
  Min : F
  Max : F
  Mean : F
  SumOfSquaredDev : F
  CountPerBucket : List Int
  deriving DecidableEq, Repr

/-- Go interface `view.AggregationData`: the nil interface, or a pointer (itself possibly nil)
to one of the four aggregation types. -/
inductive view.AggregationData (F : Type) where
  | nil
  | Count (p : Option view.CountData)
  | Sum (p : Option (view.SumData F))
  | LastValue (p : Option (view.LastValueData F))
  | Distribution (p : Option (view.DistributionData F))
  deriving DecidableEq, Repr

/-- Go `view.Row`. -/
structure view.Row (F : Type) where
  Tags : List tag.Tag
  Data : view.AggregationData F
  deriving DecidableEq, Repr

/-- Go `view.View`; the measure, tag keys and aggregation, which the exporter never reads, are
left out. -/
structure view.View where
  Name : String
  Description : String
  deriving DecidableEq, Repr

/-- Go `view.Data`: a snapshot of one view. -/
structure view.Data (F : Type) where
  View : Option view.View
  Start : time.Time
  End : time.Time
  Rows : List (Option (view.Row F))
  deriving DecidableEq, Repr

/-- Go `datadog.DataPoint` of the API client. -/
structure datadog.DataPoint (F : Type) where
  Timestamp : Int
  Value : F
  deriving DecidableEq, Repr

/-- Go `datadog.TimeSeries` of the API client, with the fields the exporter sets. -/
structure datadog.TimeSeries (F : Type) where
  Name : String
  Points : List (datadog.DataPoint F)
  Tags : List String
  Host : String
  deriving DecidableEq, Repr

/-- Go `datadog.TimeSeriesRequest` of the API client. -/
structure datadog.TimeSeriesRequest (F : Type) where
  Series : List (datadog.TimeSeries F)
  deriving DecidableEq, Repr

/-! ## Converter (`stats.go`) -/

/-- Source `normalizedTimeSeriesName`. -/
def normalizedTimeSeriesName (viewName : String) : String :=
  strings.Replace viewName "/" "."

/-- Source `newTags`: the loop appends one formatted string per tag. -/
def newTags (tags : List tag.Tag) : List String :=
  tags.foldl (fun ddTags t => ddTags ++ [t.Key.Name ++ ":" ++ t.Value]) []

/-- Source `addDataPoints`: the type switch on `r.Data`. A nil row, or a nil pointer of one of
the three handled types, is dereferenced. -/
def addDataPoints {F : Type} (float64 : Int → F) (ts : datadog.TimeSeries F)
    (r : Option (view.Row F)) (timestamp : time.Time) : Except Panic (datadog.TimeSeries F) :=
  match r with
  | none => .error .nilPointerDereference
  | some row =>
    match row.Data with
    | .Count none => .error .nilPointerDereference
    | .Count (some data) =>
      .ok { ts with Points := ts.Points ++ [⟨timestamp.Unix, float64 data.Value⟩] }
    | .Sum none => .error .nilPointerDereference
    | .Sum (some data) =>
      .ok { ts with Points := ts.Points ++ [⟨timestamp.Unix, data.Value⟩] }
    | .LastValue none => .error .nilPointerDereference
    | .LastValue (some data) =>
      .ok { ts with Points := ts.Points ++ [⟨timestamp.Unix, data.Value⟩] }
    | _ => .ok ts

/-- Inner loop of `newTimeSeriesRequest`: one record is appended to the request for every row
of the snapshot, in row order. `row.Tags` dereferences the row. -/
def rowsLoop {F : Type} (float64 : Int → F) (name hostname : String) (viewEnd : time.Time) :
    List (Option (view.Row F)) → datadog.TimeSeriesRequest F →
    Except Panic (datadog.TimeSeriesRequest F)
  | [], tsReq => .ok tsReq
  | none :: _, _ => .error .nilPointerDereference
  | some row :: rest, tsReq =>
    let ts : datadog.TimeSeries F :=
      { Name := name, Points := [], Tags := newTags row.Tags, Host := hostname }
    match addDataPoints float64 ts (some row) viewEnd with
    | .error p => .error p
    | .ok ts1 => rowsLoop float64 name hostname viewEnd rest { Series := tsReq.Series ++ [ts1] }

/-- Outer loop of `newTimeSeriesRequest`: `vd.View.Name` dereferences the snapshot and its
view; the normalized name is logged before the rows are converted. -/
def viewsLoop {F : Type} (float64 : Int → F) (hostname : String) :
    List (Option (view.Data F)) → datadog.TimeSeriesRequest F × List LogEntry →
    Except Panic (datadog.TimeSeriesRequest F × List LogEntry)
  | [], acc => .ok acc
  | none :: _, _ => .error .nilPointerDereference
  | some vd :: rest, (tsReq, lg) =>
    match vd.View with
    | none => .error .nilPointerDereference
    | some v =>
      let name := normalizedTimeSeriesName v.Name
      match rowsLoop float64 name hostname vd.End vd.Rows tsReq with
      | .error p => .error p
      | .ok tsReq1 => viewsLoop float64 hostname rest (tsReq1, lg ++ [LogEntry.Print name])

/-- Source `newTimeSeriesRequest`. `hostname` is what `os.Hostname()` returns (the empty string
when it fails). The result is the request together with the lines written to the log. -/
def newTimeSeriesRequest {F : Type} (float64 : Int → F) (hostname : String)
    (vds : List (Option (view.Data F))) :
    Except Panic (datadog.TimeSeriesRequest F × List LogEntry) :=
  viewsLoop float64 hostname vds ({ Series := [] }, [])

/-! ## Exporter (`datadog.go`, `stats.go`) -/

/-- Go `*http.Client` values, as far as the program tells them apart. -/
inductive http.Client where
  | DefaultClient
  | custom (id : Nat)
  deriving DecidableEq, Repr

/-- A function value assigned to `Options.OnError`, identified by a name. -/
structure Hook where
  name : String
  deriving DecidableEq, Repr

/-- Source `Options`. -/
structure Options where
  APIKey : String
  HTTPClient : Option http.Client
  OnError : Option Hook
  BundleDelayThreshold : Int
  BundleCountThreshold : Int
  deriving DecidableEq, Repr

/-- Go `datadog.Client` of the API client. -/
structure datadog.Client where
  APIKey : String
  HTTPClient : http.Client
  deriving DecidableEq, Repr

/-- Go `bundler.Bundler`: the two exported thresholds the exporter sets, and the rest of the
bundler (open bundle, semaphore, timer) as an uninterpreted state `σ`. -/
structure bundler.Bundler (σ : Type) where
  DelayThreshold : Int
  BundleCountThreshold : Int
  state : σ

/-- Source `statsExporter`. -/
structure statsExporter (σ : Type) where
  bundler : bundler.Bundler σ
  o : Options
  c : datadog.Client

/-- Source `Exporter`. -/
structure Exporter (σ : Type) where
  statsExporter : statsExporter σ

/-- What the program uses and does not define. -/
structure External (σ F : Type) where
  /-- Result of `os.Hostname()`. -/
  hostname : String
  /-- Conversion `float64(n)` of an `int64`. -/
  float64 : Int → F
  /-- Result of `bundler.NewBundler`: a bundler with the library defaults. -/
  NewBundler : bundler.Bundler σ
  /-- Method `Bundler.Add(item, size)`: the bundler afterwards and the returned error. -/
  Add : bundler.Bundler σ → view.Data F → Int → bundler.Bundler σ × Option GoError
  /-- Method `Client.UploadTimeSeries`: the returned error. -/
  UploadTimeSeries : datadog.Client → datadog.TimeSeriesRequest F → Option GoError

/-- Observable effects of the export path. -/
structure World (F : Type) where
  /-- Calls of `Bundler.Add`, with item and weight. -/
  addCalls : List (view.Data F × Int)
  /-- Calls of `Client.UploadTimeSeries`. -/
  uploadCalls : List (datadog.Client × datadog.TimeSeriesRequest F)
  /-- Calls of a custom `OnError` hook. -/
  hookCalls : List (Hook × GoError)
  /-- Output of the `log` package. -/
  log : List LogEntry
  /-- Goroutines started by `go e.handleUpload(vd)`, with their arguments. -/
  goroutines : List (List (Option (view.Data F)))
  deriving DecidableEq, Repr

/-- Source `newStatsExporter`: the pointer and the error it returns. -/
def newStatsExporter {σ F : Type} (ext : External σ F) (o : Options) :
    Option (statsExporter σ) × Option GoError :=
  if o.APIKey = "" then (none, some (fmt.Errorf "missing Datadog API key"))
  else
    let httpClient : http.Client :=
      match o.HTTPClient with
      | none => http.Client.DefaultClient
      | some c => c
    let e : statsExporter σ :=
      { bundler := ext.NewBundler, o := o, c := { APIKey := o.APIKey, HTTPClient := httpClient } }
    let e1 : statsExporter σ :=
      if e.o.BundleDelayThreshold > 0 then
        { e with bundler := { e.bundler with DelayThreshold := e.o.BundleDelayThreshold } }
      else e
    let e2 : statsExporter σ :=
      if e1.o.BundleCountThreshold > 0 then
        { e1 with bundler := { e1.bundler with BundleCountThreshold := e1.o.BundleCountThreshold } }
      else e1
    (some e2, none)

/-- Source `NewExporter`. -/
def NewExporter {σ F : Type} (ext : External σ F) (o : Options) :
    Option (Exporter σ) × Option GoError :=
  match newStatsExporter ext o with
  | (_, some err) => (none, some err)
  | (none, none) => (none, none)
  | (some se, none) => (some { statsExporter := se }, none)

/-- Source `Options.handleError`: the custom hook when there is one, the log otherwise. -/
def Options.handleError {F : Type} (o : Options) (err : GoError) (w : World F) : World F :=
  match o.OnError with
  | some hook => { w with hookCalls := w.hookCalls ++ [(hook, err)] }
  | none => { w with log := w.log ++ [LogEntry.Printf "Error exporting to Datadog: %v" err] }

/-- Source `statsExporter.uploadStats`: converts the bundle and calls the uploader once. -/
def statsExporter.uploadStats {σ F : Type} (ext : External σ F) (e : statsExporter σ)
    (vds : List (Option (view.Data F))) (w : World F) : Except Panic (Option GoError × World F) :=
  match newTimeSeriesRequest ext.float64 ext.hostname vds with
  | .error p => .error p
  | .ok (ts, lg) =>
    .ok (ext.UploadTimeSeries e.c ts,
      { w with log := w.log ++ lg, uploadCalls := w.uploadCalls ++ [(e.c, ts)] })

/-- Source `statsExporter.handleUpload`. -/
def statsExporter.handleUpload {σ F : Type} (ext : External σ F) (e : statsExporter σ)
    (vds : List (Option (view.Data F))) (w : World F) : Except Panic (World F) :=
  match statsExporter.uploadStats ext e vds w with
  | .error p => .error p
  | .ok (some err, w1) => .ok (e.o.handleError err w1)
  | .ok (none, w1) => .ok w1

/-- Source `statsExporter.ExportView`: the exporter (its bundler is updated by `Add`) and the
world afterwards. `len(vd.Rows)` dereferences the snapshot. -/
def statsExporter.ExportView {σ F : Type} (ext : External σ F) (e : statsExporter σ)
    (vd : Option (view.Data F)) (w : World F) : Except Panic (statsExporter σ × World F) :=
  match vd with
  | none => .error .nilPointerDereference
  | some d =>
    if d.Rows.length = 0 then .ok (e, w)
    else
      let r := ext.Add e.bundler d 1
      let e1 : statsExporter σ := { e with bundler := r.1 }
      let w1 : World F := { w with addCalls := w.addCalls ++ [(d, 1)] }
      match r.2 with
      | none => .ok (e1, w1)
      | some GoError.ErrOversizedItem =>
        .ok (e1, { w1 with goroutines := w1.goroutines ++ [[some d]] })
      | some GoError.ErrOverflow =>
        .ok (e1, e.o.handleError (errors.New "failed to upload: buffer full") w1)
      | some err => .ok (e1, e.o.handleError err w1)

/-- Source `Exporter.ExportView`. -/
def Exporter.ExportView {σ F : Type} (ext : External σ F) (e : Exporter σ)
    (vd : Option (view.Data F)) (w : World F) : Except Panic (Exporter σ × World F) :=
  match statsExporter.ExportView ext e.statsExporter vd w with
  | .error p => .error p
  | .ok (se, w1) => .ok ({ statsExporter := se }, w1)

/-! ## Vocabulary of the statements -/

/-- Character-level effect of the normalization: a slash becomes a dot. -/
def slashToDot (c : Char) : Char := if c = '/' then '.' else c

/-- A row whose data is not a nil pointer of one of the three handled aggregation types. -/
def view.Row.nilFree {F : Type} (row : view.Row F) : Bool :=
  match row.Data with
  | .Count none => false
  | .Sum none => false
  | .LastValue none => false
  | _ => true

/-- All rows of a snapshot are non-nil and nil-free. -/
def rowsNilFree {F : Type} (rows : List (Option (view.Row F))) : Bool :=
  rows.all (fun r => match r with
    | none => false
    | some row => row.nilFree)

/-- A snapshot with a view, all of whose rows are non-nil and nil-free. -/
def view.Data.nilFree {F : Type} (vd : view.Data F) : Bool :=
  vd.View.isSome && rowsNilFree vd.Rows

/-- A bundle of non-nil, nil-free snapshots. -/
def bundleNilFree {F : Type} (vds : List (Option (view.Data F))) : Bool :=
  vds.all (fun vd => match vd with
    | none => false
    | some d => d.nilFree)

/-- Total number of rows of the snapshots of a bundle. -/
def rowCount {F : Type} (vds : List (Option (view.Data F))) : Nat :=
  (vds.map (fun vd => match vd with
    | none => 0
    | some d => d.Rows.length)).sum

/-- Points of the record of a row, as the specification words them: one point for count, sum
and last-value data, none otherwise. -/
def specPoints {F : Type} (float64 : Int → F) (timestamp : time.Time) :
    view.AggregationData F → List (datadog.DataPoint F)
  | .Count (some data) => [⟨timestamp.Unix, float64 data.Value⟩]
  | .Sum (some data) => [⟨timestamp.Unix, data.Value⟩]
  | .LastValue (some data) => [⟨timestamp.Unix, data.Value⟩]
  | _ => []

/-- Record of a row, as the specification words it. -/
def specRecord {F : Type} (float64 : Int → F) (name hostname : String) (viewEnd : time.Time)
    (row : view.Row F) : datadog.TimeSeries F :=
  { Name := name, Points := specPoints float64 viewEnd row.Data,
    Tags := row.Tags.map (fun t => t.Key.Name ++ ":" ++ t.Value), Host := hostname }

/-- Records of a list of rows, as the specification words them: one per row, in row order. -/
def specRows {F : Type} (float64 : Int → F) (name hostname : String) (viewEnd : time.Time)
    (rows : List (Option (view.Row F))) : List (datadog.TimeSeries F) :=
  rows.filterMap (fun r => r.map (specRecord float64 name hostname viewEnd))

/-- Records of a snapshot, as the specification words them: the name is normalized once, every
row gives one record stamped with the end of the window. -/
def specRecords {F : Type} (float64 : Int → F) (hostname : String) (d : view.Data F) :
    List (datadog.TimeSeries F) :=
  match d.View with
  | none => []
  | some v => specRows float64 (normalizedTimeSeriesName v.Name) hostname d.End d.Rows

/-- Records of a bundle, as the specification words them: those of its snapshots, in order. -/
def specSeries {F : Type} (float64 : Int → F) (hostname : String)
    (vds : List (Option (view.Data F))) : List (datadog.TimeSeries F) :=
  (vds.map (fun vd => match vd with
    | none => []
    | some d => specRecords float64 hostname d)).flatten

/-- Log lines of a conversion: the normalized name of every snapshot, in order. -/
def specLog {F : Type} (vds : List (Option (view.Data F))) : List LogEntry :=
  vds.filterMap (fun vd => match vd with
    | none => none
    | some d => d.View.map (fun v => LogEntry.Print (normalizedTimeSeriesName v.Name)))

/-! ## Concrete values for evaluation -/

/-- A stand-in for the imported packages: a host name, the exact conversion into the rationals,
a bundler whose `Add` returns the given result, an uploader that returns the given result. -/
def demoExternal (addResult uploadResult : Option GoError) : External Unit Rat :=
  { hostname := "host"
    float64 := fun n => (n : Rat)
    NewBundler := { DelayThreshold := 1000000000, BundleCountThreshold := 10, state := () }
    Add := fun b _ _ => (b, addResult)
    UploadTimeSeries := fun _ _ => uploadResult }

/-- The options of `Example` in `example_test.go`. -/
def demoOptions : Options :=
  { APIKey := "datadog-api-key", HTTPClient := none, OnError := none,
    BundleDelayThreshold := 0, BundleCountThreshold := 0 }

/-- The exporter `newStatsExporter` builds from `demoOptions`. -/
def demoExporter : statsExporter Unit :=
  { bundler := { DelayThreshold := 1000000000, BundleCountThreshold := 10, state := () }
    o := demoOptions
    c := { APIKey := "datadog-api-key", HTTPClient := http.Client.DefaultClient } }

/-- A world in which nothing has happened yet. -/
def demoWorld : World Rat :=
  { addCalls := [], uploadCalls := [], hookCalls := [], log := [], goroutines := [] }

/-- A row with two tags and sum data. -/
def demoRow : view.Row Rat :=
  { Tags := [⟨⟨"k1"⟩, "v1"⟩, ⟨⟨"k2"⟩, "v2"⟩], Data := .Sum (some ⟨5 / 2⟩) }

/-- A row with distribution data. -/
def demoDistributionRow : view.Row Rat :=
  { Tags := [⟨⟨"k1"⟩, "v1"⟩], Data := .Distribution (some ⟨2, 1, 3, 2, 2, [1, 1]⟩) }

/-- A snapshot of the view `a/b/c` with the two rows above. -/
def demoData : view.Data Rat :=
  { View := some ⟨"a/b/c", ""⟩, Start := ⟨0, 0⟩, End := ⟨17, 5⟩,
    Rows := [some demoRow, some demoDistributionRow] }

/-- A snapshot without rows. -/
def demoEmptyData : view.Data Rat :=
  { View := some ⟨"a/b/c", ""⟩, Start := ⟨0, 0⟩, End := ⟨17, 5⟩, Rows := [] }

/-- A snapshot whose view pointer is nil. -/
def demoNilViewData : view.Data Rat :=
  { View := none, Start := ⟨0, 0⟩, End := ⟨17, 5⟩, Rows := [some demoRow] }

/-- A snapshot whose row list holds a nil row. -/
def demoNilRowData : view.Data Rat :=
  { View := some ⟨"a/b/c", ""⟩, Start := ⟨0, 0⟩, End := ⟨17, 5⟩, Rows := [none] }

/-! ## Lemmas on the string functions -/

theorem replaceFrom_slash (cs : List Char) :
    replaceFrom ['/'] ['.'] 0 cs = cs.map slashToDot := by
  induction cs with
  | nil => rfl
  | cons c cs ih =>
    by_cases h : c = '/'
    · simp [replaceFrom, List.isPrefixOf, slashToDot, h, ih]
    · have h2 : ¬ '/' = c := fun e => h e.symm
      simp [replaceFrom, List.isPrefixOf, slashToDot, h, h2, ih]

theorem normalizedTimeSeriesName_data (x : String) :
    (normalizedTimeSeriesName x).data = x.data.map slashToDot := by
  have h1 : ¬ ("/" : String) = "." := by decide
  have h2 : ("/" : String).data = ['/'] := rfl
  have h3 : (".": String).data = ['.'] := rfl
  simp [normalizedTimeSeriesName, strings.Replace, h1, h2, h3, replaceFrom_slash]

theorem slashToDot_ne_slash (c : Char) : slashToDot c ≠ '/' := by
  unfold slashToDot
  split
  · decide
  · assumption

theorem slashToDot_idem (c : Char) : slashToDot (slashToDot c) = slashToDot c := by
  have h := slashToDot_ne_slash c
  generalize slashToDot c = d at h
  simp [slashToDot, h]

theorem foldl_append_singleton {α β : Type} (f : α → β) (l : List α) (init : List β) :
    l.foldl (fun acc t => acc ++ [f t]) init = init ++ l.map f := by
  induction l generalizing init with
  | nil => simp
  | cons a l ih => simp [ih]

theorem newTags_eq_map (tags : List tag.Tag) :
    newTags tags = tags.map (fun t => t.Key.Name ++ ":" ++ t.Value) := by
  unfold newTags
  rw [foldl_append_singleton (fun t : tag.Tag => t.Key.Name ++ ":" ++ t.Value)]
  simp

/-- C3: `normalizedTimeSeriesName` is a total function, it is idempotent, and its result
contains no slash, for every string. -/
theorem normalizedTimeSeriesName_idempotent_no_slash (x : String) :
    normalizedTimeSeriesName (normalizedTimeSeriesName x) = normalizedTimeSeriesName x ∧
    '/' ∉ (normalizedTimeSeriesName x).data := by
  constructor
  · apply String.ext
    rw [normalizedTimeSeriesName_data, normalizedTimeSeriesName_data]
    simp [slashToDot_idem]
  · rw [normalizedTimeSeriesName_data]
    intro h
    rcases List.mem_map.mp h with ⟨c, _, hc⟩
    exact slashToDot_ne_slash c hc

/-! ## Lemmas on the converter -/

theorem addDataPoints_eq {F : Type} (float64 : Int → F) (ts : datadog.TimeSeries F)
    (row : view.Row F) (t : time.Time) (h : row.nilFree = true) :
    addDataPoints float64 ts (some row) t =
      .ok { ts with Points := ts.Points ++ specPoints float64 t row.Data } := by
  obtain ⟨tags, data⟩ := row
  cases data with
  | nil => simp [addDataPoints, specPoints]
  | Count p => cases p <;> simp_all [addDataPoints, specPoints, view.Row.nilFree]
  | Sum p => cases p <;> simp_all [addDataPoints, specPoints, view.Row.nilFree]
  | LastValue p => cases p <;> simp_all [addDataPoints, specPoints, view.Row.nilFree]
  | Distribution p => simp [addDataPoints, specPoints]

theorem rowsLoop_acc {F : Type} (float64 : Int → F) (name hostname : String) (t : time.Time)
    (rows : List (Option (view.Row F))) (acc : datadog.TimeSeriesRequest F) :
    rowsLoop float64 name hostname t rows acc =
      (rowsLoop float64 name hostname t rows { Series := [] }).map
        (fun r => { Series := acc.Series ++ r.Series }) := by
  induction rows generalizing acc with
  | nil => simp [rowsLoop, Except.map]
  | cons r rows ih =>
    cases r with
    | none => simp [rowsLoop, Except.map]
    | some row =>
      simp only [rowsLoop]
      cases addDataPoints float64 _ (some row) t with
      | error p => simp [Except.map]
      | ok ts1 =>
        simp only
        rw [ih, ih { Series := [] ++ [ts1] }]
        cases rowsLoop float64 name hostname t rows { Series := [] } <;> simp [Except.map]

theorem rowsLoop_ok {F : Type} (float64 : Int → F) (name hostname : String) (t : time.Time)
    (rows : List (Option (view.Row F))) (acc : datadog.TimeSeriesRequest F)
    (h : rowsNilFree rows = true) :
    rowsLoop float64 name hostname t rows acc =
      .ok { Series := acc.Series ++ specRows float64 name hostname t rows } := by
  induction rows generalizing acc with
  | nil => simp [rowsLoop, specRows]
  | cons r rows ih =>
    cases r with
    | none => simp [rowsNilFree] at h
    | some row =>
      simp only [rowsNilFree, List.all_cons, Bool.and_eq_true] at h
      simp only [rowsLoop]
      rw [addDataPoints_eq float64 _ row t h.1]
      simp only
      rw [ih _ (by simpa [rowsNilFree] using h.2)]
      simp [specRows, specRecord, newTags_eq_map]

theorem viewsLoop_acc {F : Type} (float64 : Int → F) (hostname : String)
    (vds : List (Option (view.Data F))) (acc : datadog.TimeSeriesRequest F)
    (lg : List LogEntry) :
    viewsLoop float64 hostname vds (acc, lg) =
      (viewsLoop float64 hostname vds ({ Series := [] }, [])).map
        (fun r => ({ Series := acc.Series ++ r.1.Series }, lg ++ r.2)) := by
  induction vds generalizing acc lg with
  | nil => simp [viewsLoop, Except.map]
  | cons vd vds ih =>
    cases vd with
    | none => simp [viewsLoop, Except.map]
    | some d =>
      simp only [viewsLoop]
      cases hv : d.View with
      | none => simp [Except.map]
      | some v =>
        simp only
        rw [rowsLoop_acc]
        cases rowsLoop float64 (normalizedTimeSeriesName v.Name) hostname d.End d.Rows
            { Series := [] } with
        | error p => simp [Except.map]
        | ok r1 =>
          simp only [Except.map]
          rw [ih { Series := acc.Series ++ r1.Series }, ih r1]
          cases viewsLoop float64 hostname vds ({ Series := [] }, []) <;> simp [Except.map]

/-- Sequencing of two conversions: the panic of the first, else the panic of the second, else
both series and both logs concatenated. -/
theorem newTimeSeriesRequest_append {F : Type} (float64 : Int → F) (hostname : String)
    (a b : List (Option (view.Data F))) :
    newTimeSeriesRequest float64 hostname (a ++ b) =
      match newTimeSeriesRequest float64 hostname a with
      | .error p => .error p
      | .ok ra =>
        match newTimeSeriesRequest float64 hostname b with
        | .error p => .error p
        | .ok rb => .ok ({ Series := ra.1.Series ++ rb.1.Series }, ra.2 ++ rb.2) := by
  unfold newTimeSeriesRequest
  induction a with
  | nil =>
    cases h : viewsLoop float64 hostname b ({ Series := [] }, []) <;> simp [viewsLoop, h]
  | cons vd a ih =>
    cases vd with
    | none => simp [viewsLoop]
    | some d =>
      rw [List.cons_append]
      simp only [viewsLoop]
      cases hv : d.View with
      | none => simp
      | some v =>
        simp only
        cases rowsLoop float64 (normalizedTimeSeriesName v.Name) hostname d.End d.Rows
            { Series := [] } with
        | error p => simp
        | ok r1 =>
          simp only
          rw [viewsLoop_acc float64 hostname (a ++ b) r1, viewsLoop_acc float64 hostname a r1, ih]
          cases viewsLoop float64 hostname a ({ Series := [] }, []) with
          | error p => simp [Except.map]
          | ok ra =>
            cases viewsLoop float64 hostname b ({ Series := [] }, []) <;> simp [Except.map]

theorem specSeries_append {F : Type} (float64 : Int → F) (hostname : String)
    (a b : List (Option (view.Data F))) :
    specSeries float64 hostname (a ++ b) =
      specSeries float64 hostname a ++ specSeries float64 hostname b := by
  simp [specSeries]

theorem specSeries_cons {F : Type} (float64 : Int → F) (hostname : String)
    (d : view.Data F) (vds : List (Option (view.Data F))) :
    specSeries float64 hostname (some d :: vds) =
      specRecords float64 hostname d ++ specSeries float64 hostname vds := by
  simp [specSeries]

theorem specLog_cons {F : Type} (d : view.Data F) (vds : List (Option (view.Data F))) :
    specLog (some d :: vds) = specLog [some d] ++ specLog vds := by
  unfold specLog
  rw [← List.filterMap_append]
  rfl

theorem newTimeSeriesRequest_single {F : Type} (float64 : Int → F) (hostname : String)
    (d : view.Data F) (h : d.nilFree = true) :
    newTimeSeriesRequest float64 hostname [some d] =
      .ok ({ Series := specRecords float64 hostname d }, specLog [some d]) := by
  unfold view.Data.nilFree at h
  simp only [Bool.and_eq_true] at h
  obtain ⟨hv, hr⟩ := h
  cases hview : d.View with
  | none => simp [hview] at hv
  | some v =>
    simp only [newTimeSeriesRequest, viewsLoop, hview]
    rw [rowsLoop_ok float64 _ hostname d.End d.Rows _ hr]
    simp [viewsLoop, specRecords, specLog, hview]

theorem newTimeSeriesRequest_ok {F : Type} (float64 : Int → F) (hostname : String)
    (vds : List (Option (view.Data F))) (h : bundleNilFree vds = true) :
    newTimeSeriesRequest float64 hostname vds =
      .ok ({ Series := specSeries float64 hostname vds }, specLog vds) := by
  induction vds with
  | nil => simp [newTimeSeriesRequest, viewsLoop, specSeries, specLog]
  | cons vd vds ih =>
    cases vd with
    | none => simp [bundleNilFree] at h
    | some d =>
      simp only [bundleNilFree, List.all_cons, Bool.and_eq_true] at h
      show newTimeSeriesRequest float64 hostname ([some d] ++ vds) = _
      rw [newTimeSeriesRequest_append, newTimeSeriesRequest_single float64 hostname d h.1,
        ih (by simpa [bundleNilFree] using h.2)]
      rw [specSeries_cons, specLog_cons d vds]

theorem specRows_length {F : Type} (float64 : Int → F) (name hostname : String) (t : time.Time)
    (rows : List (Option (view.Row F))) (h : rowsNilFree rows = true) :
    (specRows float64 name hostname t rows).length = rows.length := by
  induction rows with
  | nil => rfl
  | cons r rows ih =>
    cases r with
    | none => simp [rowsNilFree] at h
    | some row =>
      simp only [rowsNilFree, List.all_cons, Bool.and_eq_true] at h
      have := ih (by simpa [rowsNilFree] using h.2)
      simp only [specRows] at this
      simp [specRows, this]

theorem specRows_getElem? {F : Type} (float64 : Int → F) (name hostname : String)
    (t : time.Time) (rows : List (Option (view.Row F))) (i : Nat) (row : view.Row F)
    (h : rowsNilFree rows = true) (hi : rows[i]? = some (some row)) :
    (specRows float64 name hostname t rows)[i]? = some (specRecord float64 name hostname t row) := by
  induction rows generalizing i with
  | nil => simp at hi
  | cons r rows ih =>
    cases r with
    | none => simp [rowsNilFree] at h
    | some r0 =>
      simp only [rowsNilFree, List.all_cons, Bool.and_eq_true] at h
      cases i with
      | zero =>
        simp only [List.getElem?_cons_zero, Option.some.injEq] at hi
        simp [specRows, hi]
      | succ j =>
        simp only [List.getElem?_cons_succ] at hi
        have := ih j (by simpa [rowsNilFree] using h.2) hi
        simp only [specRows] at this
        simp [specRows, this]

theorem bundleNilFree_append {F : Type} (a b : List (Option (view.Data F))) :
    bundleNilFree (a ++ b) = (bundleNilFree a && bundleNilFree b) := by
  simp [bundleNilFree]

theorem bundleNilFree_cons {F : Type} (d : view.Data F) (b : List (Option (view.Data F))) :
    bundleNilFree (some d :: b) = (d.nilFree && bundleNilFree b) := by
  simp [bundleNilFree]

theorem specSeries_length {F : Type} (float64 : Int → F) (hostname : String)
    (vds : List (Option (view.Data F))) (h : bundleNilFree vds = true) :
    (specSeries float64 hostname vds).length = rowCount vds := by
  induction vds with
  | nil => rfl
  | cons vd vds ih =>
    cases vd with
    | none => simp [bundleNilFree] at h
    | some d =>
      rw [bundleNilFree_cons, Bool.and_eq_true] at h
      obtain ⟨hd, hrest⟩ := h
      simp only [view.Data.nilFree, Bool.and_eq_true] at hd
      cases hv : d.View with
      | none => simp [hv] at hd
      | some v =>
        rw [specSeries_cons, List.length_append, ih hrest]
        simp [specRecords, hv, rowCount, specRows_length float64 _ hostname d.End d.Rows hd.2]

/-- In the conversion of a nil-free bundle, the record of row `i` of a snapshot stands at the
position given by the rows before it. -/
theorem specSeries_getElem? {F : Type} (float64 : Int → F) (hostname : String)
    (pre post : List (Option (view.Data F))) (d : view.Data F) (v : view.View) (i : Nat)
    (row : view.Row F) (hnil : bundleNilFree (pre ++ some d :: post) = true)
    (hv : d.View = some v) (hrow : d.Rows[i]? = some (some row)) :
    (specSeries float64 hostname (pre ++ some d :: post))[rowCount pre + i]? =
      some (specRecord float64 (normalizedTimeSeriesName v.Name) hostname d.End row) := by
  rw [bundleNilFree_append, Bool.and_eq_true, bundleNilFree_cons, Bool.and_eq_true] at hnil
  obtain ⟨hpre, hd, _⟩ := hnil
  simp only [view.Data.nilFree, Bool.and_eq_true] at hd
  have hlen := specSeries_length float64 hostname pre hpre
  have hget := specRows_getElem? float64 (normalizedTimeSeriesName v.Name) hostname d.End d.Rows
    i row hd.2 hrow
  have hi : i < (specRecords float64 hostname d).length := by
    simp only [specRecords, hv]
    rw [specRows_length float64 _ hostname d.End d.Rows hd.2]
    by_contra hc
    rw [List.getElem?_eq_none (Nat.le_of_not_lt hc)] at hrow
    exact Option.noConfusion hrow
  rw [specSeries_append, specSeries_cons, List.getElem?_append_right (by omega)]
  rw [hlen, Nat.add_sub_cancel_left, List.getElem?_append_left hi]
  simpa [specRecords, hv] using hget

/-! ## Converter: the claims -/

/-- C4: in the conversion of a bundle, the record of row `i` of a snapshot is named after the
view with every slash replaced by a dot, and its tags are the row's tags rendered as key name,
colon, value, in the same order and number; a row with sum `V` and two tags in the view `a/b/c`
gives the record `a.b.c` with tags `k1:v1`, `k2:v2` and the single point of value `V`. -/
theorem newTimeSeriesRequest_name_and_tags {F : Type} (float64 : Int → F) (hostname : String)
    (pre post : List (Option (view.Data F))) (d : view.Data F) (v : view.View) (i : Nat)
    (row : view.Row F) (hnil : bundleNilFree (pre ++ some d :: post) = true)
    (hv : d.View = some v) (hrow : d.Rows[i]? = some (some row)) :
    (∃ req lg r,
      newTimeSeriesRequest float64 hostname (pre ++ some d :: post) = .ok (req, lg) ∧
      req.Series[rowCount pre + i]? = some r ∧
      r.Name.data = v.Name.data.map (fun c => if c = '/' then '.' else c) ∧
      r.Tags.length = row.Tags.length ∧
      ∀ (j : Nat) (t : tag.Tag), row.Tags[j]? = some t → r.Tags[j]? = some (t.Key.Name ++ ":" ++ t.Value)) ∧
    (∀ (V : F) (k1 v1 k2 v2 descr : String) (s e : time.Time),
      newTimeSeriesRequest float64 hostname
        [some ⟨some ⟨"a/b/c", descr⟩, s, e,
          [some ⟨[⟨⟨k1⟩, v1⟩, ⟨⟨k2⟩, v2⟩], .Sum (some ⟨V⟩)⟩]⟩] =
      .ok (⟨[⟨"a.b.c", [⟨e.Unix, V⟩], [k1 ++ ":" ++ v1, k2 ++ ":" ++ v2], hostname⟩]⟩,
        [LogEntry.Print "a.b.c"])) := by
  refine ⟨⟨_, _, _, newTimeSeriesRequest_ok float64 hostname _ hnil,
    specSeries_getElem? float64 hostname pre post d v i row hnil hv hrow, ?_, ?_, ?_⟩, ?_⟩
  · exact normalizedTimeSeriesName_data v.Name
  · simp [specRecord]
  · intro j t ht
    simp [specRecord, ht]
  · intro V k1 v1 k2 v2 descr s e
    rfl

/-- C4, at the demo snapshot inside a bundle of three. -/
theorem newTimeSeriesRequest_name_and_tags_witness :
    bundleNilFree ([some demoData] ++ some demoData :: [some demoEmptyData]) = true ∧
    ∃ req lg r,
      newTimeSeriesRequest (fun n : Int => (n : Rat)) "host"
        ([some demoData] ++ some demoData :: [some demoEmptyData]) = .ok (req, lg) ∧
      req.Series[rowCount [some demoData] + 0]? = some r ∧
      r.Name.data = ("a/b/c" : String).data.map (fun c => if c = '/' then '.' else c) ∧
      r.Tags.length = demoRow.Tags.length ∧
      ∀ (j : Nat) (t : tag.Tag), demoRow.Tags[j]? = some t → r.Tags[j]? = some (t.Key.Name ++ ":" ++ t.Value) :=
  ⟨by decide, (newTimeSeriesRequest_name_and_tags (fun n : Int => (n : Rat)) "host"
    [some demoData] [some demoEmptyData] demoData ⟨"a/b/c", ""⟩ 0 demoRow (by decide) rfl rfl).1⟩

/-- C5: for count, sum and last-value data, `addDataPoints` on a record without points leaves
exactly one point, stamped with the window end in Unix seconds, whose value is the converted
count, the sum, or the last value; count 3 gives 3 and last value 2.5 gives 2.5. -/
theorem addDataPoints_one_point {F : Type} (float64 : Int → F) (ts : datadog.TimeSeries F)
    (tags : List tag.Tag) (t : time.Time) (hts : ts.Points = []) :
    (∀ n : Int, addDataPoints float64 ts (some ⟨tags, .Count (some ⟨n⟩)⟩) t =
      .ok { ts with Points := [⟨t.Unix, float64 n⟩] }) ∧
    (∀ x : F, addDataPoints float64 ts (some ⟨tags, .Sum (some ⟨x⟩)⟩) t =
      .ok { ts with Points := [⟨t.Unix, x⟩] }) ∧
    (∀ x : F, addDataPoints float64 ts (some ⟨tags, .LastValue (some ⟨x⟩)⟩) t =
      .ok { ts with Points := [⟨t.Unix, x⟩] }) ∧
    (∀ (r : datadog.TimeSeries Rat), r.Points = [] →
      addDataPoints (fun n : Int => (n : Rat)) r (some ⟨tags, .Count (some ⟨3⟩)⟩) t =
        .ok { r with Points := [⟨t.unixSec, 3⟩] } ∧
      addDataPoints (fun n : Int => (n : Rat)) r (some ⟨tags, .LastValue (some ⟨5 / 2⟩)⟩) t =
        .ok { r with Points := [⟨t.unixSec, 5 / 2⟩] }) := by
  refine ⟨?_, ?_, ?_, ?_⟩
  · intro n
    simp [addDataPoints, hts]
  · intro x
    simp [addDataPoints, hts]
  · intro x
    simp [addDataPoints, hts]
  · intro r hr
    simp [addDataPoints, hr, time.Time.Unix]

/-- C5, at a record named `a.b.c` and the time 17 s. -/
theorem addDataPoints_one_point_witness :
    (⟨"a.b.c", [], ["k1:v1"], "host"⟩ : datadog.TimeSeries Rat).Points = [] ∧
    addDataPoints (fun n : Int => (n : Rat)) ⟨"a.b.c", [], ["k1:v1"], "host"⟩
      (some ⟨[⟨⟨"k1"⟩, "v1"⟩], .Count (some ⟨3⟩)⟩) ⟨17, 5⟩ =
      .ok ⟨"a.b.c", [⟨17, 3⟩], ["k1:v1"], "host"⟩ :=
  ⟨rfl, (addDataPoints_one_point (fun n : Int => (n : Rat)) ⟨"a.b.c", [], ["k1:v1"], "host"⟩
    [⟨⟨"k1"⟩, "v1"⟩] ⟨17, 5⟩ rfl).1 3⟩

theorem specLog_append {F : Type} (a b : List (Option (view.Data F))) :
    specLog (a ++ b) = specLog a ++ specLog b := by
  simp [specLog]

/-- C6: a row whose data is neither count, sum nor last-value (distribution data, or no data)
still gets its record, with the normalized name, the row's tags and the host, and with an
empty point list: `addDataPoints` adds nothing for such a row. -/
theorem newTimeSeriesRequest_unrecognized_kind {F : Type} (float64 : Int → F)
    (hostname : String) (pre post : List (Option (view.Data F))) (d : view.Data F)
    (v : view.View) (i : Nat) (row : view.Row F)
    (hnil : bundleNilFree (pre ++ some d :: post) = true) (hv : d.View = some v)
    (hrow : d.Rows[i]? = some (some row))
    (hkind : row.Data = .nil ∨ ∃ p, row.Data = .Distribution p) :
    (∃ req lg,
      newTimeSeriesRequest float64 hostname (pre ++ some d :: post) = .ok (req, lg) ∧
      req.Series[rowCount pre + i]? =
        some { Name := normalizedTimeSeriesName v.Name, Points := [],
               Tags := newTags row.Tags, Host := hostname }) ∧
    (∀ (ts : datadog.TimeSeries F) (t : time.Time),
      addDataPoints float64 ts (some row) t = .ok ts) := by
  have hp : ∀ t : time.Time, specPoints float64 t row.Data = [] := by
    intro t
    rcases hkind with h | ⟨p, h⟩ <;> simp [h, specPoints]
  refine ⟨⟨_, _, newTimeSeriesRequest_ok float64 hostname _ hnil, ?_⟩, ?_⟩
  · rw [specSeries_getElem? float64 hostname pre post d v i row hnil hv hrow]
    simp [specRecord, hp, newTags_eq_map]
  · intro ts t
    obtain ⟨tags, data⟩ := row
    rcases hkind with h | ⟨p, h⟩
    · simp only at h
      subst h
      rfl
    · simp only at h
      subst h
      rfl

/-- C6, at the distribution row of the demo snapshot. -/
theorem newTimeSeriesRequest_unrecognized_kind_witness :
    bundleNilFree ([] ++ some demoData :: []) = true ∧
    ∃ req lg,
      newTimeSeriesRequest (fun n : Int => (n : Rat)) "host" ([] ++ some demoData :: []) =
        .ok (req, lg) ∧
      req.Series[rowCount ([] : List (Option (view.Data Rat))) + 1]? =
        some { Name := normalizedTimeSeriesName "a/b/c", Points := [],
               Tags := newTags demoDistributionRow.Tags, Host := "host" } :=
  ⟨by decide, (newTimeSeriesRequest_unrecognized_kind (fun n : Int => (n : Rat)) "host" [] []
    demoData ⟨"a/b/c", ""⟩ 1 demoDistributionRow (by decide) rfl rfl
    (Or.inr ⟨_, rfl⟩)).1⟩

theorem rowsNilFree_getElem? {F : Type} (rows : List (Option (view.Row F))) (i : Nat)
    (row : view.Row F) (h : rowsNilFree rows = true) (hi : rows[i]? = some (some row)) :
    row.nilFree = true := by
  have hmem : some row ∈ rows := List.getElem?_mem hi
  simp only [rowsNilFree, List.all_eq_true] at h
  exact h (some row) hmem

/-- C10: the conversion of `a ++ b` is the conversion of `a` followed by that of `b` (series
and log concatenated, a panic of either one propagated); a nil-free bundle is converted into as
many records as it has rows; a snapshot contributes to a bundle the records it gives alone;
and the records stand in snapshot order, then row order: the record at the position counted by
the rows of the snapshots before plus the row's index is the record of that very row, the one
`addDataPoints` fills for it and the one the row gives when it is converted alone. -/
theorem newTimeSeriesRequest_distributes {F : Type} (float64 : Int → F) (hostname : String) :
    (∀ a b : List (Option (view.Data F)),
      newTimeSeriesRequest float64 hostname (a ++ b) =
        match newTimeSeriesRequest float64 hostname a with
        | .error p => .error p
        | .ok ra =>
          match newTimeSeriesRequest float64 hostname b with
          | .error p => .error p
          | .ok rb => .ok ({ Series := ra.1.Series ++ rb.1.Series }, ra.2 ++ rb.2)) ∧
    (∀ vds : List (Option (view.Data F)), bundleNilFree vds = true →
      ∃ req lg, newTimeSeriesRequest float64 hostname vds = .ok (req, lg) ∧
        req.Series.length = rowCount vds) ∧
    (∀ (pre post : List (Option (view.Data F))) (d : view.Data F),
      bundleNilFree (pre ++ some d :: post) = true →
      ∃ rp rd rq : datadog.TimeSeriesRequest F × List LogEntry,
        newTimeSeriesRequest float64 hostname pre = .ok rp ∧
        newTimeSeriesRequest float64 hostname [some d] = .ok rd ∧
        newTimeSeriesRequest float64 hostname post = .ok rq ∧
        rd.1.Series.length = d.Rows.length ∧
        newTimeSeriesRequest float64 hostname (pre ++ some d :: post) =
          .ok ({ Series := rp.1.Series ++ rd.1.Series ++ rq.1.Series }, rp.2 ++ rd.2 ++ rq.2)) ∧
    (∀ (pre post : List (Option (view.Data F))) (d : view.Data F) (v : view.View) (i : Nat)
      (row : view.Row F),
      bundleNilFree (pre ++ some d :: post) = true → d.View = some v →
      d.Rows[i]? = some (some row) →
      ∃ req lg r,
        newTimeSeriesRequest float64 hostname (pre ++ some d :: post) = .ok (req, lg) ∧
        req.Series[rowCount pre + i]? = some r ∧
        addDataPoints float64
          { Name := normalizedTimeSeriesName v.Name, Points := [], Tags := newTags row.Tags,
            Host := hostname } (some row) d.End = .ok r ∧
        newTimeSeriesRequest float64 hostname [some { d with Rows := [some row] }] =
          .ok ({ Series := [r] }, [LogEntry.Print (normalizedTimeSeriesName v.Name)])) := by
  refine ⟨newTimeSeriesRequest_append float64 hostname, ?_, ?_, ?_⟩
  · intro vds h
    exact ⟨_, _, newTimeSeriesRequest_ok float64 hostname vds h,
      specSeries_length float64 hostname vds h⟩
  · intro pre post d h
    have h0 := h
    rw [bundleNilFree_append, Bool.and_eq_true, bundleNilFree_cons, Bool.and_eq_true] at h
    obtain ⟨hpre, hd, hpost⟩ := h
    have hone : bundleNilFree [some d] = true := by
      rw [bundleNilFree_cons, hd]
      rfl
    refine ⟨_, _, _, newTimeSeriesRequest_ok float64 hostname pre hpre,
      newTimeSeriesRequest_ok float64 hostname [some d] hone,
      newTimeSeriesRequest_ok float64 hostname post hpost, ?_, ?_⟩
    · have := specSeries_length float64 hostname [some d] hone
      simpa [rowCount] using this
    · rw [newTimeSeriesRequest_ok float64 hostname _ h0]
      have e : pre ++ some d :: post = pre ++ ([some d] ++ post) := rfl
      rw [e, specSeries_append, specSeries_append, specLog_append, specLog_append]
      simp
  · intro pre post d v i row hnil hv hrow
    have h := hnil
    rw [bundleNilFree_append, Bool.and_eq_true, bundleNilFree_cons, Bool.and_eq_true] at h
    obtain ⟨_, hd, _⟩ := h
    simp only [view.Data.nilFree, Bool.and_eq_true] at hd
    have hr : row.nilFree = true := rowsNilFree_getElem? d.Rows i row hd.2 hrow
    refine ⟨_, _, _, newTimeSeriesRequest_ok float64 hostname _ hnil,
      specSeries_getElem? float64 hostname pre post d v i row hnil hv hrow, ?_, ?_⟩
    · rw [addDataPoints_eq float64 _ row d.End hr]
      simp [specRecord, newTags_eq_map]
    · have hone : ({ d with Rows := [some row] } : view.Data F).nilFree = true := by
        simp [view.Data.nilFree, rowsNilFree, hv, hr]
      rw [newTimeSeriesRequest_single float64 hostname _ hone]
      simp [specRecords, specRows, specLog, hv]

/-- C10, at a bundle of two demo snapshots: four records, and the record of the second row of
the second snapshot stands at position 2 + 1. -/
theorem newTimeSeriesRequest_distributes_witness :
    bundleNilFree ([some demoData] ++ some demoData :: []) = true ∧
    (∃ req lg, newTimeSeriesRequest (fun n : Int => (n : Rat)) "host"
        ([some demoData] ++ some demoData :: []) = .ok (req, lg) ∧
      req.Series.length = rowCount ([some demoData] ++ some demoData :: [])) ∧
    (∃ req lg r, newTimeSeriesRequest (fun n : Int => (n : Rat)) "host"
        ([some demoData] ++ some demoData :: []) = .ok (req, lg) ∧
      req.Series[rowCount [some demoData] + 1]? = some r ∧
      addDataPoints (fun n : Int => (n : Rat))
        { Name := normalizedTimeSeriesName "a/b/c", Points := [],
          Tags := newTags demoDistributionRow.Tags, Host := "host" }
        (some demoDistributionRow) demoData.End = .ok r ∧
      newTimeSeriesRequest (fun n : Int => (n : Rat)) "host"
        [some { demoData with Rows := [some demoDistributionRow] }] =
        .ok ({ Series := [r] }, [LogEntry.Print (normalizedTimeSeriesName "a/b/c")])) :=
  ⟨by decide,
    (newTimeSeriesRequest_distributes (fun n : Int => (n : Rat)) "host").2.1
      ([some demoData] ++ some demoData :: []) (by decide),
    (newTimeSeriesRequest_distributes (fun n : Int => (n : Rat)) "host").2.2.2
      [some demoData] [] demoData ⟨"a/b/c", ""⟩ 1 demoDistributionRow (by decide) rfl rfl⟩

/-! ## Panics of the converter -/

theorem addDataPoints_ok_nilFree {F : Type} (float64 : Int → F) (ts r : datadog.TimeSeries F)
    (row : view.Row F) (t : time.Time) (h : addDataPoints float64 ts (some row) t = .ok r) :
    row.nilFree = true := by
  obtain ⟨tags, data⟩ := row
  cases data with
  | nil => rfl
  | Count p => cases p <;> simp_all [addDataPoints, view.Row.nilFree]
  | Sum p => cases p <;> simp_all [addDataPoints, view.Row.nilFree]
  | LastValue p => cases p <;> simp_all [addDataPoints, view.Row.nilFree]
  | Distribution p => rfl

theorem rowsLoop_ok_nilFree {F : Type} (float64 : Int → F) (name hostname : String)
    (t : time.Time) (rows : List (Option (view.Row F))) (acc r : datadog.TimeSeriesRequest F)
    (h : rowsLoop float64 name hostname t rows acc = .ok r) : rowsNilFree rows = true := by
  induction rows generalizing acc with
  | nil => rfl
  | cons row rows ih =>
    cases row with
    | none => simp [rowsLoop] at h
    | some row =>
      simp only [rowsLoop] at h
      cases ha : addDataPoints float64
          { Name := name, Points := [], Tags := newTags row.Tags, Host := hostname }
          (some row) t with
      | error p => simp [ha] at h
      | ok ts1 =>
        simp only [ha] at h
        have h1 := addDataPoints_ok_nilFree float64 _ ts1 row t ha
        have h2 := ih _ h
        simp only [rowsNilFree] at h2
        simp [rowsNilFree, h1, h2]

theorem viewsLoop_ok_nilFree {F : Type} (float64 : Int → F) (hostname : String)
    (vds : List (Option (view.Data F)))
    (acc r : datadog.TimeSeriesRequest F × List LogEntry)
    (h : viewsLoop float64 hostname vds acc = .ok r) : bundleNilFree vds = true := by
  induction vds generalizing acc with
  | nil => rfl
  | cons vd vds ih =>
    obtain ⟨tsReq, lg⟩ := acc
    cases vd with
    | none => simp [viewsLoop] at h
    | some d =>
      simp only [viewsLoop] at h
      cases hv : d.View with
      | none => simp [hv] at h
      | some v =>
        simp only [hv] at h
        cases hr : rowsLoop float64 (normalizedTimeSeriesName v.Name) hostname d.End d.Rows
            tsReq with
        | error p => simp [hr] at h
        | ok r1 =>
          simp only [hr] at h
          have h1 := rowsLoop_ok_nilFree float64 _ hostname d.End d.Rows tsReq r1 hr
          have h2 := ih _ h
          rw [bundleNilFree_cons, h2]
          simp [view.Data.nilFree, hv, h1]

/-- The converter returns exactly on nil-free bundles. -/
theorem newTimeSeriesRequest_returns_iff {F : Type} (float64 : Int → F) (hostname : String)
    (vds : List (Option (view.Data F))) :
    (∃ r, newTimeSeriesRequest float64 hostname vds = .ok r) ↔ bundleNilFree vds = true := by
  constructor
  · rintro ⟨r, h⟩
    exact viewsLoop_ok_nilFree float64 hostname vds _ r h
  · intro h
    exact ⟨_, newTimeSeriesRequest_ok float64 hostname vds h⟩

/-! ## Exporter: the claims -/

/-- C1: construction fails exactly when the API key is empty: then no exporter is returned and
the error is `missing Datadog API key`; with any other key an exporter is returned, holding the
options and the key, and the error is nil, whatever the other options are. -/
theorem NewExporter_fails_iff_no_key {σ F : Type} (ext : External σ F) (o : Options) :
    (o.APIKey = "" →
      newStatsExporter ext o = (none, some (GoError.errorString "missing Datadog API key")) ∧
      NewExporter ext o = (none, some (GoError.errorString "missing Datadog API key"))) ∧
    (o.APIKey ≠ "" →
      ∃ se : statsExporter σ, newStatsExporter ext o = (some se, none) ∧
        NewExporter ext o = (some { statsExporter := se }, none) ∧
        se.o = o ∧ se.c.APIKey = o.APIKey) ∧
    ((NewExporter ext o).1 = none ↔ o.APIKey = "") ∧
    ((NewExporter ext o).2 = none ↔ o.APIKey ≠ "") := by
  by_cases h : o.APIKey = ""
  · have h1 : newStatsExporter ext o =
        (none, some (GoError.errorString "missing Datadog API key")) := by
      simp [newStatsExporter, h, fmt.Errorf]
    have h2 : NewExporter ext o =
        (none, some (GoError.errorString "missing Datadog API key")) := by
      simp [NewExporter, h1]
    refine ⟨fun _ => ⟨h1, h2⟩, fun hne => absurd h hne, ?_, ?_⟩
    · simp [h2, h]
    · simp [h2, h]
  · obtain ⟨se, hse, ho, hc⟩ : ∃ se : statsExporter σ,
        newStatsExporter ext o = (some se, none) ∧ se.o = o ∧ se.c.APIKey = o.APIKey := by
      simp only [newStatsExporter, h, if_false]
      refine ⟨_, rfl, ?_, ?_⟩
      · split <;> split <;> rfl
      · split <;> split <;> rfl
    have h2 : NewExporter ext o = (some { statsExporter := se }, none) := by
      simp [NewExporter, hse]
    refine ⟨fun he => absurd he h, fun _ => ⟨se, hse, h2, ho, hc⟩, ?_, ?_⟩
    · simp [h2, h]
    · simp [h2, h]

/-- C1, at the empty key and at the key of the example test. -/
theorem NewExporter_fails_iff_no_key_witness :
    NewExporter (demoExternal none none) { demoOptions with APIKey := "" } =
      (none, some (GoError.errorString "missing Datadog API key")) ∧
    NewExporter (demoExternal none none) demoOptions =
      (some { statsExporter := demoExporter }, none) :=
  ⟨((NewExporter_fails_iff_no_key (demoExternal none none)
      { demoOptions with APIKey := "" }).1 rfl).2, rfl⟩

/-- C2: for a snapshot without rows `ExportView` returns and changes nothing: the exporter with
its bundler, the calls of `Add`, the uploads, the started goroutines, the hook calls and the
log are what they were. -/
theorem ExportView_no_rows {σ F : Type} (ext : External σ F) (e : statsExporter σ)
    (d : view.Data F) (w : World F) (h : d.Rows = []) :
    statsExporter.ExportView ext e (some d) w = .ok (e, w) ∧
    Exporter.ExportView ext { statsExporter := e } (some d) w =
      .ok ({ statsExporter := e }, w) := by
  simp [statsExporter.ExportView, Exporter.ExportView, h]

/-- C2, at the demo snapshot without rows. -/
theorem ExportView_no_rows_witness :
    demoEmptyData.Rows = [] ∧
    statsExporter.ExportView (demoExternal (some GoError.ErrOverflow) none) demoExporter
      (some demoEmptyData) demoWorld = .ok (demoExporter, demoWorld) :=
  ⟨rfl, (ExportView_no_rows (demoExternal (some GoError.ErrOverflow) none) demoExporter
    demoEmptyData demoWorld rfl).1⟩

theorem handleUpload_ok {σ F : Type} (ext : External σ F) (e : statsExporter σ)
    (vds : List (Option (view.Data F))) (w : World F)
    (req : datadog.TimeSeriesRequest F) (lg : List LogEntry)
    (h : newTimeSeriesRequest ext.float64 ext.hostname vds = .ok (req, lg)) :
    statsExporter.handleUpload ext e vds w =
      .ok (match ext.UploadTimeSeries e.c req with
        | none => { w with log := w.log ++ lg, uploadCalls := w.uploadCalls ++ [(e.c, req)] }
        | some err => e.o.handleError err
            { w with log := w.log ++ lg, uploadCalls := w.uploadCalls ++ [(e.c, req)] }) := by
  simp only [statsExporter.handleUpload, statsExporter.uploadStats, h]
  cases ext.UploadTimeSeries e.c req <;> rfl

/-- C7: for a snapshot with at least one row `ExportView` calls `Add` once, with the snapshot
and weight 1, and returns; on success nothing else happens; on the oversized-item error one
goroutine is started that uploads exactly this snapshot and the hook is not called; on the
overflow error the error `failed to upload: buffer full` goes once to the hook (the custom hook
if there is one, else the log) and nothing is uploaded; any other error goes once, unchanged,
to the hook and nothing is uploaded. The started goroutine makes one upload call, with the
conversion of the snapshot alone. -/
theorem ExportView_with_rows {σ F : Type} (ext : External σ F) (e : statsExporter σ)
    (d : view.Data F) (w : World F) (h : d.Rows ≠ []) :
    (∃ w1 : World F,
      statsExporter.ExportView ext e (some d) w =
        .ok ({ e with bundler := (ext.Add e.bundler d 1).1 }, w1) ∧
      w1.addCalls = w.addCalls ++ [(d, 1)] ∧
      w1.uploadCalls = w.uploadCalls ∧
      match (ext.Add e.bundler d 1).2, e.o.OnError with
      | none, _ =>
        w1 = { w with addCalls := w.addCalls ++ [(d, 1)] }
      | some GoError.ErrOversizedItem, _ =>
        w1 = { w with addCalls := w.addCalls ++ [(d, 1)],
                      goroutines := w.goroutines ++ [[some d]] }
      | some GoError.ErrOverflow, some hook =>
        w1 = { w with addCalls := w.addCalls ++ [(d, 1)],
                      hookCalls := w.hookCalls ++
                        [(hook, GoError.errorString "failed to upload: buffer full")] }
      | some GoError.ErrOverflow, none =>
        w1 = { w with addCalls := w.addCalls ++ [(d, 1)],
                      log := w.log ++ [LogEntry.Printf "Error exporting to Datadog: %v"
                        (GoError.errorString "failed to upload: buffer full")] }
      | some (GoError.errorString msg), some hook =>
        w1 = { w with addCalls := w.addCalls ++ [(d, 1)],
                      hookCalls := w.hookCalls ++ [(hook, GoError.errorString msg)] }
      | some (GoError.errorString msg), none =>
        w1 = { w with addCalls := w.addCalls ++ [(d, 1)],
                      log := w.log ++ [LogEntry.Printf "Error exporting to Datadog: %v"
                        (GoError.errorString msg)] }) ∧
    (d.nilFree = true →
      ∃ req lg, newTimeSeriesRequest ext.float64 ext.hostname [some d] = .ok (req, lg) ∧
        ∀ (e1 : statsExporter σ) (w2 : World F), ∃ w3 : World F,
          statsExporter.handleUpload ext e1 [some d] w2 = .ok w3 ∧
          w3.uploadCalls = w2.uploadCalls ++ [(e1.c, req)]) := by
  have hlen : ¬ d.Rows.length = 0 := by
    intro hc
    exact h (List.length_eq_zero.mp hc)
  constructor
  · simp only [statsExporter.ExportView, hlen, if_false]
    cases hadd : (ext.Add e.bundler d 1).2 with
    | none => exact ⟨_, rfl, rfl, rfl, rfl⟩
    | some err =>
      cases err with
      | ErrOversizedItem => exact ⟨_, rfl, rfl, rfl, rfl⟩
      | ErrOverflow =>
        cases ho : e.o.OnError with
        | none => exact ⟨_, rfl, by simp [Options.handleError, ho],
            by simp [Options.handleError, ho], by simp [Options.handleError, ho, errors.New]⟩
        | some hook => exact ⟨_, rfl, by simp [Options.handleError, ho],
            by simp [Options.handleError, ho], by simp [Options.handleError, ho, errors.New]⟩
      | errorString msg =>
        cases ho : e.o.OnError with
        | none => exact ⟨_, rfl, by simp [Options.handleError, ho],
            by simp [Options.handleError, ho], by simp [Options.handleError, ho]⟩
        | some hook => exact ⟨_, rfl, by simp [Options.handleError, ho],
            by simp [Options.handleError, ho], by simp [Options.handleError, ho]⟩
  · intro hd
    have hone : bundleNilFree [some d] = true := by
      rw [bundleNilFree_cons, hd]
      rfl
    have hreq := newTimeSeriesRequest_ok ext.float64 ext.hostname [some d] hone
    refine ⟨_, _, hreq, ?_⟩
    intro e1 w2
    rw [handleUpload_ok ext e1 [some d] w2 _ _ hreq]
    refine ⟨_, rfl, ?_⟩
    cases ext.UploadTimeSeries e1.c _ with
    | none => rfl
    | some err =>
      cases ho : e1.o.OnError <;> simp [Options.handleError, ho]

/-- C7, at the demo snapshot and a bundler that reports an oversized item. -/
theorem ExportView_with_rows_witness :
    demoData.Rows ≠ [] ∧
    ∃ w1 : World Rat,
      statsExporter.ExportView (demoExternal (some GoError.ErrOversizedItem) none) demoExporter
        (some demoData) demoWorld = .ok (demoExporter, w1) ∧
      w1.addCalls = [(demoData, 1)] ∧
      w1.uploadCalls = [] ∧
      w1 = { demoWorld with addCalls := [(demoData, 1)], goroutines := [[some demoData]] } :=
  ⟨by decide, (ExportView_with_rows (demoExternal (some GoError.ErrOversizedItem) none)
    demoExporter demoData demoWorld (by decide)).1⟩

/-- C8: for a bundle the upload handler converts the whole bundle, calls the uploader exactly
once with that request, and returns; when the call fails the error goes once to the custom
hook if one is configured and to the log otherwise, and there is no second upload call; when
it succeeds neither the hook nor the error log is used. -/
theorem handleUpload_once {σ F : Type} (ext : External σ F) (e : statsExporter σ)
    (vds : List (Option (view.Data F))) (w : World F) (h : bundleNilFree vds = true) :
    ∃ req lg w1,
      newTimeSeriesRequest ext.float64 ext.hostname vds = .ok (req, lg) ∧
      statsExporter.handleUpload ext e vds w = .ok w1 ∧
      w1.uploadCalls = w.uploadCalls ++ [(e.c, req)] ∧
      w1.addCalls = w.addCalls ∧
      w1.goroutines = w.goroutines ∧
      match ext.UploadTimeSeries e.c req, e.o.OnError with
      | none, _ => w1.hookCalls = w.hookCalls ∧ w1.log = w.log ++ lg
      | some err, some hook =>
        w1.hookCalls = w.hookCalls ++ [(hook, err)] ∧ w1.log = w.log ++ lg
      | some err, none =>
        w1.hookCalls = w.hookCalls ∧
        w1.log = w.log ++ lg ++ [LogEntry.Printf "Error exporting to Datadog: %v" err] := by
  have hreq := newTimeSeriesRequest_ok ext.float64 ext.hostname vds h
  refine ⟨_, _, _, hreq, handleUpload_ok ext e vds w _ _ hreq, ?_⟩
  cases ext.UploadTimeSeries e.c _ with
  | none => exact ⟨rfl, rfl, rfl, rfl, rfl⟩
  | some err =>
    cases ho : e.o.OnError with
    | none => simp [Options.handleError, ho]
    | some hook => simp [Options.handleError, ho]

/-- C8, at a bundle of two demo snapshots, a failing uploader and a custom hook. -/
theorem handleUpload_once_witness :
    bundleNilFree [some demoData, some demoEmptyData] = true ∧
    ∃ req lg w1,
      newTimeSeriesRequest (fun n : Int => (n : Rat)) "host"
        [some demoData, some demoEmptyData] = .ok (req, lg) ∧
      statsExporter.handleUpload (demoExternal none (some (GoError.errorString "503")))
        { demoExporter with o := { demoOptions with OnError := some ⟨"hook"⟩ } }
        [some demoData, some demoEmptyData] demoWorld = .ok w1 ∧
      w1.uploadCalls = [(demoExporter.c, req)] ∧
      w1.addCalls = [] ∧
      w1.goroutines = [] ∧
      w1.hookCalls = [(⟨"hook"⟩, GoError.errorString "503")] ∧
      w1.log = lg :=
  ⟨by decide, handleUpload_once (demoExternal none (some (GoError.errorString "503")))
    { demoExporter with o := { demoOptions with OnError := some ⟨"hook"⟩ } }
    [some demoData, some demoEmptyData] demoWorld (by decide)⟩

/-- C9, as stated, fails: a nil snapshot makes `ExportView` panic, and a nil snapshot, a nil
view or a nil row makes `newTimeSeriesRequest` and the upload handler panic. -/
theorem export_path_panics_on_nil :
    statsExporter.ExportView (demoExternal none none) demoExporter none demoWorld =
      .error Panic.nilPointerDereference ∧
    newTimeSeriesRequest (fun n : Int => (n : Rat)) "host" [some demoNilViewData] =
      .error Panic.nilPointerDereference ∧
    newTimeSeriesRequest (fun n : Int => (n : Rat)) "host" [none] =
      .error Panic.nilPointerDereference ∧
    newTimeSeriesRequest (fun n : Int => (n : Rat)) "host" [some demoData, some demoNilRowData] =
      .error Panic.nilPointerDereference ∧
    statsExporter.handleUpload (demoExternal none none) demoExporter [some demoNilViewData]
      demoWorld = .error Panic.nilPointerDereference :=
  ⟨rfl, rfl, rfl, rfl, rfl⟩

/-- C9, amended: `ExportView` returns normally exactly for a non-nil snapshot, and
`newTimeSeriesRequest` and the upload handler return normally exactly for a bundle of non-nil
snapshots that have a view, only non-nil rows, and no nil pointer as count, sum or last-value
data. -/
theorem export_path_returns_iff {σ F : Type} (ext : External σ F) (e : statsExporter σ)
    (w : World F) :
    (∀ vd : Option (view.Data F),
      ((∃ r, statsExporter.ExportView ext e vd w = .ok r) ↔ vd.isSome = true) ∧
      ((∃ r, Exporter.ExportView ext { statsExporter := e } vd w = .ok r) ↔
        vd.isSome = true)) ∧
    (∀ vds : List (Option (view.Data F)),
      ((∃ r, newTimeSeriesRequest ext.float64 ext.hostname vds = .ok r) ↔
        bundleNilFree vds = true) ∧
      ((∃ w1, statsExporter.handleUpload ext e vds w = .ok w1) ↔
        bundleNilFree vds = true)) := by
  constructor
  · intro vd
    cases vd with
    | none => simp [statsExporter.ExportView, Exporter.ExportView]
    | some d =>
      have hse : ∃ r, statsExporter.ExportView ext e (some d) w = .ok r := by
        simp only [statsExporter.ExportView]
        split
        · exact ⟨_, rfl⟩
        · split <;> exact ⟨_, rfl⟩
      obtain ⟨r, hr⟩ := hse
      constructor
      · simp [hr]
      · simp [Exporter.ExportView, hr]
  · intro vds
    refine ⟨newTimeSeriesRequest_returns_iff ext.float64 ext.hostname vds, ?_⟩
    constructor
    · rintro ⟨w1, h1⟩
      apply (newTimeSeriesRequest_returns_iff ext.float64 ext.hostname vds).mp
      cases hreq : newTimeSeriesRequest ext.float64 ext.hostname vds with
      | error p => simp [statsExporter.handleUpload, statsExporter.uploadStats, hreq] at h1
      | ok r => exact ⟨r, rfl⟩
    · intro h
      have hreq := newTimeSeriesRequest_ok ext.float64 ext.hostname vds h
      exact ⟨_, handleUpload_ok ext e vds w _ _ hreq⟩

end DatadogExporter
